import Mathlib

/-!
Verification of the git-client implementation (object store, pack decoder,
packet-line framing) against its natural-language specification.

Bytes are modelled as `List Nat` (each element a value below 256).  Rust
functions returning `anyhow::Result` are modelled as `Except RErr`, where
`RErr.err` is a returned error value (`Err`/`?`) and `RErr.panic` is a crash
(panic, failed assert, out-of-range index, arithmetic underflow, `todo!`).
-/

/-- Outcome classification for fallible Rust code: `err` is a returned
`Err` value the caller can handle, `panic` is a crash (assert failure,
index out of bounds, integer underflow, `todo!`, `unreachable!`). -/
inductive RErr where
  | err
  | panic
deriving DecidableEq

/-- Decidable equality for `Except`, needed to evaluate the embedded
functions on concrete inputs. -/
instance {ε α : Type} [DecidableEq ε] [DecidableEq α] : DecidableEq (Except ε α) :=
  fun x y =>
    match x, y with
    | .ok a, .ok b =>
      match decEq a b with
      | isTrue h => isTrue (h ▸ rfl)
      | isFalse h => isFalse (fun hh => h (Except.ok.inj hh))
    | .error a, .error b =>
      match decEq a b with
      | isTrue h => isTrue (h ▸ rfl)
      | isFalse h => isFalse (fun hh => h (Except.error.inj hh))
    | .ok _, .error _ => isFalse (fun hh => Except.noConfusion hh)
    | .error _, .ok _ => isFalse (fun hh => Except.noConfusion hh)

/-- ASCII string literal as a byte list (all strings in the program are ASCII). -/
def str2bytes (s : String) : List Nat :=
  s.data.map Char.toNat

/-- Lower-case hex digit for a value below 16 (as in `hex::encode`). -/
def hexChar (n : Nat) : Nat :=
  if n < 10 then 48 + n else 87 + n

/-- `hex::encode`: each byte becomes two lowercase hex digits. -/
def hexEncode (bs : List Nat) : List Nat :=
  bs.flatMap (fun b => [hexChar ((b % 256) / 16), hexChar (b % 16)])

/-- Value of one hex digit (upper or lower case), as accepted by
`from_str_radix(_, 16)` and `hex::decode`. -/
def hexDigitVal (c : Nat) : Option Nat :=
  if 48 ≤ c ∧ c ≤ 57 then some (c - 48)
  else if 97 ≤ c ∧ c ≤ 102 then some (c - 87)
  else if 65 ≤ c ∧ c ≤ 70 then some (c - 55)
  else none

/-- `hex::decode`: pairs of hex digits to bytes; fails on an odd length or a
non-hex character. -/
def hexDecode : List Nat → Option (List Nat)
  | [] => some []
  | [_] => none
  | c1 :: c2 :: rest => do
    let d1 ← hexDigitVal c1
    let d2 ← hexDigitVal c2
    let tl ← hexDecode rest
    pure ((d1 * 16 + d2) :: tl)

/-- Decimal digits of `n`, fuel-indexed so that the kernel can evaluate it
(`decimalAux (n+1) n` always has enough fuel). -/
def decimalAux : Nat → Nat → List Nat
  | 0, _ => []
  | fuel + 1, n => if n < 10 then [48 + n] else decimalAux fuel (n / 10) ++ [48 + n % 10]

/-- ASCII decimal representation of a natural number, as produced by Rust's
`to_string` / `format!("{}", n)`. -/
def decimal (n : Nat) : List Nat :=
  decimalAux (n + 1) n

/-- Parse an unsigned decimal integer as Rust's `str::parse::<usize>` does:
an optional leading `+`, then one or more decimal digits, rejecting values
that overflow 64 bits. -/
def parseUsizeDigits : List Nat → Nat → Option Nat
  | [], acc => some acc
  | c :: rest, acc =>
    if 48 ≤ c ∧ c ≤ 57 then parseUsizeDigits rest (acc * 10 + (c - 48)) else none

/-- Rust `str::parse::<usize>` on a byte list (ASCII). -/
def parseUsize (s : List Nat) : Option Nat :=
  let body := if s.headD 0 = 43 then s.drop 1 else s
  match body with
  | [] => none
  | _ :: _ => do
    let v ← parseUsizeDigits body 0
    if v < 18446744073709551616 then some v else none

/-- UTF-8 validity of a byte sequence, as checked by `std::str::from_utf8`. -/
def utf8Valid : List Nat → Bool
  | [] => true
  | b :: rest =>
    if b < 0x80 then utf8Valid rest
    else if 0xC2 ≤ b ∧ b ≤ 0xDF then
      match rest with
      | c1 :: r => decide (0x80 ≤ c1 ∧ c1 ≤ 0xBF) && utf8Valid r
      | [] => false
    else if b = 0xE0 then
      match rest with
      | c1 :: c2 :: r =>
        decide (0xA0 ≤ c1 ∧ c1 ≤ 0xBF) && decide (0x80 ≤ c2 ∧ c2 ≤ 0xBF) && utf8Valid r
      | _ => false
    else if (0xE1 ≤ b ∧ b ≤ 0xEC) ∨ (0xEE ≤ b ∧ b ≤ 0xEF) then
      match rest with
      | c1 :: c2 :: r =>
        decide (0x80 ≤ c1 ∧ c1 ≤ 0xBF) && decide (0x80 ≤ c2 ∧ c2 ≤ 0xBF) && utf8Valid r
      | _ => false
    else if b = 0xED then
      match rest with
      | c1 :: c2 :: r =>
        decide (0x80 ≤ c1 ∧ c1 ≤ 0x9F) && decide (0x80 ≤ c2 ∧ c2 ≤ 0xBF) && utf8Valid r
      | _ => false
    else if b = 0xF0 then
      match rest with
      | c1 :: c2 :: c3 :: r =>
        decide (0x90 ≤ c1 ∧ c1 ≤ 0xBF) && decide (0x80 ≤ c2 ∧ c2 ≤ 0xBF) &&
          decide (0x80 ≤ c3 ∧ c3 ≤ 0xBF) && utf8Valid r
      | _ => false
    else if 0xF1 ≤ b ∧ b ≤ 0xF3 then
      match rest with
      | c1 :: c2 :: c3 :: r =>
        decide (0x80 ≤ c1 ∧ c1 ≤ 0xBF) && decide (0x80 ≤ c2 ∧ c2 ≤ 0xBF) &&
          decide (0x80 ≤ c3 ∧ c3 ≤ 0xBF) && utf8Valid r
      | _ => false
    else if b = 0xF4 then
      match rest with
      | c1 :: c2 :: c3 :: r =>
        decide (0x80 ≤ c1 ∧ c1 ≤ 0x8F) && decide (0x80 ≤ c2 ∧ c2 ≤ 0xBF) &&
          decide (0x80 ≤ c3 ∧ c3 ≤ 0xBF) && utf8Valid r
      | _ => false
    else false

/-- Strict byte-lexicographic order on byte lists (Rust `Ord` for `String`
restricted to the byte level). -/
def bytesLt : List Nat → List Nat → Bool
  | [], [] => false
  | [], _ :: _ => true
  | _ :: _, [] => false
  | a :: as_, b :: bs => if a < b then true else if b < a then false else bytesLt as_ bs

/-- Non-strict byte-lexicographic order. -/
def bytesLe (a b : List Nat) : Bool :=
  !(bytesLt b a)

/-! ### SHA-1 (the 160-bit digest used for object identities) -/

/-- Truncate to a 32-bit word. -/
def w32 (x : Nat) : Nat := x % 4294967296

/-- Left-rotate a 32-bit word by `n` bits. -/
def rotl (n x : Nat) : Nat :=
  w32 ((x <<< n) ||| (x >>> (32 - n)))

/-- SHA-1 round function for round `t`. -/
def sha1F (t b c d : Nat) : Nat :=
  if t < 20 then (b &&& c) ||| ((4294967295 ^^^ b) &&& d)
  else if t < 40 then b ^^^ c ^^^ d
  else if t < 60 then (b &&& c) ||| (b &&& d) ||| (c &&& d)
  else b ^^^ c ^^^ d

/-- SHA-1 round constant for round `t`. -/
def sha1K (t : Nat) : Nat :=
  if t < 20 then 0x5A827999
  else if t < 40 then 0x6ED9EBA1
  else if t < 60 then 0x8F1BBCDC
  else 0xCA62C1D6

/-- Extend a 16-word block to the 80-word message schedule, appending
`count` more words. -/
def sha1Sched (ws : List Nat) : Nat → List Nat
  | 0 => ws
  | count + 1 =>
    let n := ws.length
    let next := rotl 1 ((ws.getD (n - 3) 0) ^^^ (ws.getD (n - 8) 0) ^^^
      (ws.getD (n - 14) 0) ^^^ (ws.getD (n - 16) 0))
    sha1Sched (ws ++ [next]) count

/-- One SHA-1 compression round on the five-word state. -/
def sha1Round (st : Nat × Nat × Nat × Nat × Nat) (t w : Nat) :
    Nat × Nat × Nat × Nat × Nat :=
  match st with
  | (a, b, c, d, e) =>
    (w32 (rotl 5 a + sha1F t b c d + e + sha1K t + w), a, rotl 30 b, c, d)

/-- Process one 64-byte block (given as 16 big-endian words). -/
def sha1Block (h : Nat × Nat × Nat × Nat × Nat) (block : List Nat) :
    Nat × Nat × Nat × Nat × Nat :=
  let ws := sha1Sched block 64
  let r := (List.range 80).foldl (fun st t => sha1Round st t (ws.getD t 0)) h
  match h, r with
  | (h0, h1, h2, h3, h4), (a, b, c, d, e) =>
    (w32 (h0 + a), w32 (h1 + b), w32 (h2 + c), w32 (h3 + d), w32 (h4 + e))

/-- Group a byte list (whose length is a multiple of 4) into big-endian
32-bit words. -/
def bytesToWords : List Nat → List Nat
  | a :: b :: c :: d :: rest => (a * 16777216 + b * 65536 + c * 256 + d) :: bytesToWords rest
  | _ => []

/-- Fold the compression function over successive 16-word blocks. -/
def sha1Blocks (h : Nat × Nat × Nat × Nat × Nat) : List Nat → Nat × Nat × Nat × Nat × Nat
  | w0 :: w1 :: w2 :: w3 :: w4 :: w5 :: w6 :: w7 :: w8 :: w9 :: w10 :: w11 :: w12 ::
      w13 :: w14 :: w15 :: rest =>
    sha1Blocks (sha1Block h [w0, w1, w2, w3, w4, w5, w6, w7, w8, w9, w10, w11, w12, w13, w14, w15]) rest
  | _ => h

/-- A 32-bit word as four big-endian bytes. -/
def wordBytes (w : Nat) : List Nat :=
  [(w >>> 24) % 256, (w >>> 16) % 256, (w >>> 8) % 256, w % 256]

/-- SHA-1 padding: `0x80`, zeros to 56 mod 64, then the 64-bit big-endian
bit length. -/
def sha1Pad (msg : List Nat) : List Nat :=
  let len := msg.length
  let bitLen := 8 * len
  msg ++ [0x80] ++ List.replicate ((119 - len % 64) % 64) 0 ++
    [(bitLen >>> 56) % 256, (bitLen >>> 48) % 256, (bitLen >>> 40) % 256,
     (bitLen >>> 32) % 256, (bitLen >>> 24) % 256, (bitLen >>> 16) % 256,
     (bitLen >>> 8) % 256, bitLen % 256]

/-- SHA-1 digest of a byte sequence, as 20 bytes. -/
def sha1 (msg : List Nat) : List Nat :=
  match sha1Blocks (0x67452301, 0xEFCDAB89, 0x98BADCFE, 0x10325476, 0xC3D2E1F0)
      (bytesToWords (sha1Pad msg)) with
  | (h0, h1, h2, h3, h4) =>
    wordBytes h0 ++ wordBytes h1 ++ wordBytes h2 ++ wordBytes h3 ++ wordBytes h4

set_option maxRecDepth 100000 in
/-- Sanity check of the digest against the standard test vector for "abc". -/
theorem sha1_abc :
    hexEncode (sha1 (str2bytes "abc")) =
      str2bytes "a9993e364706816aba3e25717850c26c9cd0d89d" := by decide

/-! ### util.rs -/

/-- `util::high_bit`: whether the continuation bit (0x80) of a byte is set. -/
def high_bit (byte : Nat) : Bool :=
  ((byte &&& 0x80) >>> 7) != 0

/-- Loop of `util::parse_size`: `cur` is the byte just examined, `rest` the
bytes after it, `value` the accumulator.  While the current byte's high bit
is set the next byte's low 7 bits are OR'd in at a fixed shift of 7; reading
past the end of the input is a panic (index out of bounds). -/
def parse_size_go (cur : Nat) (rest : List Nat) (value : Nat) :
    Except RErr (List Nat × Nat) :=
  if high_bit cur then
    match rest with
    | [] => .error .panic
    | b :: rest2 => parse_size_go b rest2 (value ||| ((b &&& 0x7f) <<< 7))
  else
    .ok (rest, value)

/-- `util::parse_size`: variable-length integer decoder.  The first byte
contributes its low 4 bits; every subsequent byte contributes its low 7 bits
shifted left by a constant 7. -/
def parse_size : List Nat → Except RErr (List Nat × Nat)
  | [] => .error .panic
  | b :: rest => parse_size_go b rest (b &&& 0x0f)

/-- `u16::from_str_radix(s, 16)` for a four-byte prefix: an optional leading
`+` followed by hex digits (either case); anything else is a returned
error.  Four hex digits never overflow `u16`. -/
def hex4 (b0 b1 b2 b3 : Nat) : Option Nat :=
  if b0 = 43 then do
    let d1 ← hexDigitVal b1
    let d2 ← hexDigitVal b2
    let d3 ← hexDigitVal b3
    pure (d1 * 256 + d2 * 16 + d3)
  else do
    let d0 ← hexDigitVal b0
    let d1 ← hexDigitVal b1
    let d2 ← hexDigitVal b2
    let d3 ← hexDigitVal b3
    pure (d0 * 4096 + d1 * 256 + d2 * 16 + d3)

/-- Loop body of `util::parse_packet_lines`.  Mirrors the Rust loop: check
for a literal `PACK` prefix (indexing `rest[0..4]` panics when fewer than 4
bytes remain), parse the 4-hex-digit length (a returned error on non-hex),
stop on a flush packet, and otherwise slice out the payload — where a
declared length below 5 underflows `line_length - 5` and a short payload
indexes out of bounds, both panics.  `fuel` only bounds the recursion and is
never exhausted on inputs the loop terminates on. -/
def ppl_go (fuel : Nat) (rest : List Nat) (lines : List (List Nat)) :
    Except RErr (List Nat × List (List Nat)) :=
  match fuel with
  | 0 => .error .panic
  | fuel + 1 =>
    match rest with
    | b0 :: b1 :: b2 :: b3 :: rest4 =>
      if [b0, b1, b2, b3] = str2bytes "PACK" then
        .ok ([], lines ++ [rest])
      else
        match hex4 b0 b1 b2 b3 with
        | none => .error .err
        | some lineLength =>
          if lineLength = 0 then .ok (rest4, lines)
          else if lineLength < 5 then .error .panic
          else if rest4.length < lineLength - 4 then .error .panic
          else
            let line := if rest4.getD (lineLength - 5) 0 = 10 then
              rest4.take (lineLength - 5) else rest4.take (lineLength - 4)
            ppl_go fuel (rest4.drop (lineLength - 4)) (lines ++ [line])
    | _ => .error .panic

/-- `util::parse_packet_lines`: decode packet lines until a flush packet or
an embedded pack stream, returning the remaining bytes and the collected
lines. -/
def parse_packet_lines (input : List Nat) :
    Except RErr (List Nat × List (List Nat)) :=
  ppl_go (input.length + 1) input []

/-- The repository's own test case for packet-line decoding. -/
theorem parse_packet_lines_service_line :
    parse_packet_lines (str2bytes "001e# service=git-upload-pack\n0000") =
      .ok ([], [str2bytes "# service=git-upload-pack"]) := by decide

/-! ### pack.rs -/

/-- `pack::PackedObjectType` (pack.rs lines 15-23). -/
inductive PackedObjectType where
  | commit
  | tree
  | blob
  | tag
  | ofsDelta (offset : Option Nat)
  | refDelta (hash : Option (List Nat))
deriving DecidableEq

/-- `pack::PackedObject` (pack.rs lines 8-13); `content` is the
zlib-decompressed record payload. -/
structure PackedObject where
  ty : PackedObjectType
  _size : Nat
  content : List Nat
deriving DecidableEq

/-- `PackedObject::parse_header` (pack.rs lines 38-71): object type from
bits 6-4 of the first byte, size from its low nibble extended by
`parse_size` shifted left 4, then for ofs-delta a `parse_size` offset and
for ref-delta 20 raw base-identity bytes (hex-encoded). -/
def PackedObject.parse_header (input : List Nat) :
    Except RErr (List Nat × (PackedObjectType × Nat)) := do
  match input with
  | [] => .error .panic
  | b0 :: rest0 =>
    let objectType ←
      match (b0 &&& 0x70) >>> 4 with
      | 1 => pure PackedObjectType.commit
      | 2 => pure PackedObjectType.tree
      | 3 => pure PackedObjectType.blob
      | 4 => pure PackedObjectType.tag
      | 6 => pure (PackedObjectType.ofsDelta none)
      | 7 => pure (PackedObjectType.refDelta none)
      | _ => Except.error RErr.err
    let (input1, objectSize) ←
      if high_bit b0 then do
        let (rest, extra) ← parse_size rest0
        pure (rest, (b0 &&& 0x0f) ||| (extra <<< 4))
      else
        pure (rest0, b0 &&& 0x0f)
    match objectType with
    | .ofsDelta _ => do
      let (rest, offsetValue) ← parse_size input1
      pure (rest, (PackedObjectType.ofsDelta (some offsetValue), objectSize))
    | .refDelta _ =>
      if input1.length < 20 then .error .panic
      else
        pure (input1.drop 20,
          (PackedObjectType.refDelta (some (hexEncode (input1.take 20))), objectSize))
    | ty => pure (input1, (ty, objectSize))

/-- `pack::PatchInstruction` (pack.rs lines 153-157). -/
inductive PatchInstruction where
  | copy (offset size : Nat)
  | add (data : List Nat)
deriving DecidableEq

/-- Read one optional byte of a copy instruction: consumed only when the
corresponding mask bit is set, otherwise defaulting to 0; reading past the
end of the input is a panic. -/
def pull (cond : Bool) (l : List Nat) : Except RErr (Nat × List Nat) :=
  if cond then
    match l with
    | [] => .error .panic
    | x :: xs => .ok (x, xs)
  else
    .ok (0, l)

/-- `pack::parse_patch_instruction` (pack.rs lines 183-221): a set high bit
introduces a Copy whose mask bits 0-3 select little-endian offset bytes and
bits 4-6 little-endian size bytes (absent bytes are 0, with no special case
for an all-zero size); a clear high bit introduces an Add whose low 7 bits
are the byte count, asserted non-zero. -/
def parse_patch_instruction : List Nat → Except RErr (List Nat × PatchInstruction)
  | [] => .error .panic
  | b :: rest =>
    if high_bit b then do
      let (o0, r1) ← pull (b.testBit 0) rest
      let (o1, r2) ← pull (b.testBit 1) r1
      let (o2, r3) ← pull (b.testBit 2) r2
      let (o3, r4) ← pull (b.testBit 3) r3
      let (s0, r5) ← pull (b.testBit 4) r4
      let (s1, r6) ← pull (b.testBit 5) r5
      let (s2, r7) ← pull (b.testBit 6) r6
      .ok (r7, .copy (o0 + 256 * o1 + 65536 * o2 + 16777216 * o3)
        (s0 + 256 * s1 + 65536 * s2))
    else
      let size := b &&& 0x7f
      if size = 0 then .error .panic
      else if rest.length < size then .error .panic
      else .ok (rest.drop size, .add (rest.take size))

/-- Instruction loop of `pack::patch_delta` (pack.rs lines 165-178).  A copy
whose `offset + size` exceeds the base length is a panic (slice out of
range).  `fuel` bounds the recursion; each parsed instruction consumes at
least one byte, so `rest.length` fuel is never exhausted. -/
def patch_loop (source : List Nat) (fuel : Nat) (rest acc : List Nat) :
    Except RErr (List Nat) :=
  match rest with
  | [] => .ok acc
  | _ :: _ =>
    match fuel with
    | 0 => .error .panic
    | fuel + 1 => do
      let (rem, instruction) ← parse_patch_instruction rest
      match instruction with
      | .copy offset size =>
        if offset + size ≤ source.length then
          patch_loop source fuel rem (acc ++ (source.drop offset).take size)
        else
          .error .panic
      | .add data => patch_loop source fuel rem (acc ++ data)

/-- `pack::patch_delta` (pack.rs lines 159-181): skip the two
variable-length prefix integers (source and target length, both unused
beyond capacity), then apply the instruction stream. -/
def patch_delta (input source : List Nat) : Except RErr (List Nat) := do
  let (input1, _sourceBufLen) ← parse_size input
  let (input2, _targetBufLen) ← parse_size input1
  patch_loop source input2.length input2 []

/-- `HashMap::get` over the association list of already-registered objects,
keyed by 40-character hex identity. -/
def lookupObj : List (List Nat × PackedObject) → List Nat → Option PackedObject
  | [], _ => none
  | (k, v) :: rest, key => if k = key then some v else lookupObj rest key

/-- The delta-resolution step of `pack::parse_pack_file` (pack.rs lines
117-130): an ofs-delta record hits `todo!("offset delta")` (a panic); a
ref-delta record looks up its base by identity (`expect` panics when it is
absent), patches the delta against the base's content, and sets the
resolved type to `Blob`; base records pass through unchanged. -/
def resolveObject (objects : List (List Nat × PackedObject)) (po : PackedObject) :
    Except RErr PackedObject :=
  match po.ty with
  | .ofsDelta _ => .error .panic
  | .refDelta none => .error .panic
  | .refDelta (some hash) =>
    match lookupObj objects hash with
    | none => .error .panic
    | some refObject => do
      let newContent ← patch_delta po.content refObject.content
      pure { ty := PackedObjectType.blob, _size := po._size, content := newContent }
  | _ => .ok po

/-- The registration identity of `pack::parse_pack_file` (pack.rs lines
132-145): hex-encoded SHA-1 of `<kind> <len>\0<content>` where the kind
string comes from the record's (possibly rewritten) type; delta types reach
`unreachable!`, a panic. -/
def objectHash (po : PackedObject) : Except RErr (List Nat) :=
  match po.ty with
  | .commit => .ok (hexEncode (sha1 (str2bytes "commit " ++
      decimal po.content.length ++ [0] ++ po.content)))
  | .tree => .ok (hexEncode (sha1 (str2bytes "tree " ++
      decimal po.content.length ++ [0] ++ po.content)))
  | .blob => .ok (hexEncode (sha1 (str2bytes "blob " ++
      decimal po.content.length ++ [0] ++ po.content)))
  | .tag => .ok (hexEncode (sha1 (str2bytes "tag " ++
      decimal po.content.length ++ [0] ++ po.content)))
  | _ => .error .panic

/-- The repository's own test case for the record header. -/
theorem parse_header_test :
    PackedObject.parse_header [0x9d, 0x0e] =
      .ok ([], (PackedObjectType.commit, 237)) := by decide

/-- The repository's own test case for a copy instruction (note the size of
0, matching the code, not the format's 0x10000 convention). -/
theorem parse_copy_test :
    parse_patch_instruction [0x85, 0x12, 0xab] =
      .ok ([], .copy 11206674 0) := by decide

/-- The repository's own test case for an add instruction. -/
theorem parse_add_test :
    parse_patch_instruction [0x02, 0x12, 0xab] =
      .ok ([], .add [0x12, 0xab]) := by decide

/-! ### object.rs -/

/-- `object::TreeEntry` (object.rs lines 18-23): mode and name are strings,
the target identity is stored as a 40-character hex string. -/
structure TreeEntry where
  mode : List Nat
  name : List Nat
  hash : List Nat
deriving DecidableEq

/-- `object::Commit` (object.rs lines 25-31): at most one parent
(`Option`), and a creation timestamp (`SystemTime`, modelled as seconds
since the Unix epoch). -/
structure Commit where
  tree_hash : List Nat
  parent_hash : Option (List Nat)
  message : List Nat
  timestamp : Nat
deriving DecidableEq

/-- `object::Object` (object.rs lines 11-16): the three representable
kinds.  There is no tag variant. -/
inductive Object where
  | blob (content : List Nat)
  | tree (entries : List TreeEntry)
  | commit (c : Commit)
deriving DecidableEq

/-- `Commit::new` (object.rs lines 34-41); the `SystemTime::now()` reading
is made explicit as the `now` argument. -/
def Commit.new (tree_hash : List Nat) (parent_hash : Option (List Nat))
    (message : List Nat) (now : Nat) : Commit :=
  ⟨tree_hash, parent_hash, message, now⟩

/-- `Commit::encode` (object.rs lines 43-75): a `tree` line, an optional
single `parent` line, the author and committer lines with hardcoded names,
the creation timestamp in seconds and a fixed `+0000` zone, a blank line,
the message, and a final newline. -/
def Commit.encode (c : Commit) : List Nat :=
  str2bytes "tree " ++ c.tree_hash ++ [10] ++
  (match c.parent_hash with
   | some p => str2bytes "parent " ++ p ++ [10]
   | none => []) ++
  str2bytes "author Author Name <author@example.com> " ++ decimal c.timestamp ++
    str2bytes " +0000\n" ++
  str2bytes "committer Committer Name <committer@example.com> " ++ decimal c.timestamp ++
    str2bytes " +0000\n" ++
  [10] ++ c.message ++ [10]

/-- `TreeEntry::encoded_len` (object.rs lines 125-128). -/
def TreeEntry.encoded_len (e : TreeEntry) : Nat :=
  e.mode.length + 1 + e.name.length + 1 + 20

/-- `TreeEntry::encode` (object.rs lines 130-140): mode, space, name, NUL,
then the 20 raw identity bytes; `hex::decode(...).unwrap()` panics on a
malformed hash, modelled by `Option`. -/
def TreeEntry.encode (e : TreeEntry) : Option (List Nat) := do
  let raw ← hexDecode e.hash
  pure (e.mode ++ [32] ++ e.name ++ [0] ++ raw)

/-- Concatenated encodings of a tree's entries, `none` if any single
encoding panics. -/
def encodeEntries : List TreeEntry → Option (List Nat)
  | [] => some []
  | e :: rest => do
    let b ← e.encode
    let tl ← encodeEntries rest
    pure (b ++ tl)

/-- `Object::header` (object.rs lines 269-288): kind tag, a space, and the
decimal payload length. -/
def Object.header : Object → List Nat
  | .blob content => str2bytes "blob " ++ decimal content.length
  | .tree entries =>
    str2bytes "tree " ++ decimal (entries.foldl (fun a e => a + e.encoded_len) 0)
  | .commit c => str2bytes "commit " ++ decimal (Commit.encode c).length

/-- Payload bytes of an object, per the `match` blocks of `Object::add` and
`Object::hash`. -/
def Object.body : Object → Option (List Nat)
  | .blob content => some content
  | .tree entries => encodeEntries entries
  | .commit c => some (Commit.encode c)

/-- The canonical byte form `<kind> <len>\0<payload>` written by
`Object::add` and hashed by `Object::hash`. -/
def Object.canonical (o : Object) : Option (List Nat) := do
  let b ← o.body
  pure (o.header ++ [0] ++ b)

/-- `Object::hash` (object.rs lines 246-266): hex-encoded SHA-1 of the
canonical bytes. -/
def Object.hash (o : Object) : Option (List Nat) := do
  let b ← o.canonical
  pure (hexEncode (sha1 b))

/-- Split a byte list at the first occurrence of `target`, returning the
bytes before it and the bytes after it; `none` when `target` never occurs
(the Rust scan loops past the end of the buffer, a panic). -/
def splitAtByte (target : Nat) : List Nat → Option (List Nat × List Nat)
  | [] => none
  | b :: rest =>
    if b = target then some ([], rest)
    else
      match splitAtByte target rest with
      | none => none
      | some (h, t) => some (b :: h, t)

/-- Whether `pat` is a byte-prefix of `s` (Rust `str::starts_with`). -/
def bytesStartsWith : List Nat → List Nat → Bool
  | [], _ => true
  | _ :: _, [] => false
  | p :: ps, b :: bs => p == b && bytesStartsWith ps bs

/-- Rust string slicing `header[5..]`: panics when the string is shorter
than 5 bytes or when byte 5 is not a character boundary. -/
def strDrop5 (hdr : List Nat) : Except RErr (List Nat) :=
  if hdr.length < 5 then .error .panic
  else if 5 < hdr.length ∧ 0x80 ≤ hdr.getD 5 0 ∧ hdr.getD 5 0 < 0xC0 then .error .panic
  else .ok (hdr.drop 5)

/-- `TreeEntry::parse` (object.rs lines 104-123): scan to the first space
(mode), to the next NUL (name) — each scan panics if it runs off the end —
then take 20 raw identity bytes and store them hex-encoded. -/
def TreeEntry.parse (input : List Nat) : Except RErr (List Nat × TreeEntry) :=
  match splitAtByte 32 input with
  | none => .error .panic
  | some (modeBytes, r1) =>
    if !utf8Valid modeBytes then .error .err
    else
      match splitAtByte 0 r1 with
      | none => .error .panic
      | some (nameBytes, r2) =>
        if !utf8Valid nameBytes then .error .err
        else if r2.length < 20 then .error .panic
        else .ok (r2.drop 20, ⟨modeBytes, nameBytes, hexEncode (r2.take 20)⟩)

/-- Entry loop of the tree branch of `Object::parse` (object.rs lines
170-176).  Each entry consumes at least 22 bytes, so `rest.length` fuel is
never exhausted. -/
def parse_tree_go (fuel : Nat) (rest : List Nat) (acc : List TreeEntry) :
    Except RErr (List TreeEntry) :=
  match rest with
  | [] => .ok acc
  | _ :: _ =>
    match fuel with
    | 0 => .error .panic
    | fuel + 1 => do
      let (rem, e) ← TreeEntry.parse rest
      parse_tree_go fuel rem (acc ++ [e])

/-- The canonical-byte part of `Object::parse` (object.rs lines 154-184),
operating on the zlib-decompressed contents: split at the first NUL, check
the header, dispatch on its prefix.  A `commit` header reaches
`todo!("parsing commit object")`, a panic; any other unknown kind is a
returned error. -/
def parse_content (content : List Nat) : Except RErr Object :=
  match splitAtByte 0 content with
  | none => .error .panic
  | some (hdr, body) =>
    if !utf8Valid hdr then .error .err
    else if bytesStartsWith (str2bytes "blob") hdr then do
      let tail ← strDrop5 hdr
      match parseUsize tail with
      | none => .error .err
      | some size => if body.length = size then .ok (.blob body) else .error .panic
    else if bytesStartsWith (str2bytes "tree") hdr then do
      let tail ← strDrop5 hdr
      match parseUsize tail with
      | none => .error .err
      | some size =>
        if body.length = size then do
          let entries ← parse_tree_go body.length body []
          .ok (.tree entries)
        else .error .panic
    else if bytesStartsWith (str2bytes "commit") hdr then .error .panic
    else .error .err

/-- Stable insertion of a tree entry after all entries whose name is not
greater, preserving the relative order of equal names. -/
def insertByName (e : TreeEntry) : List TreeEntry → List TreeEntry
  | [] => [e]
  | f :: fs => if bytesLe f.name e.name then f :: insertByName e fs else e :: f :: fs

/-- The `entries.sort_by_key(|e| e.name.clone())` step of
`Object::new_from_path` (object.rs line 207): a stable sort by the plain
byte order of the entry name. -/
def sortEntriesByName (l : List TreeEntry) : List TreeEntry :=
  l.foldl (fun acc e => insertByName e acc) []

/-- The pure core of the directory branch of `Object::new_from_path`
(object.rs lines 198-208): the collected entries of the filesystem listing
(in `read_dir` order, `.git` already excluded) are sorted by name and
wrapped in a tree object. -/
def new_from_path_entries (listing : List TreeEntry) : Object :=
  .tree (sortEntriesByName listing)

/-- `Object::new_commit` (object.rs lines 187-189). -/
def new_commit (tree_hash : List Nat) (parent_hash : Option (List Nat))
    (message : List Nat) (now : Nat) : Object :=
  .commit (Commit.new tree_hash parent_hash message now)

/-- `main::commit_tree` (main.rs lines 142-156): asserts a 40-character
tree hash, exactly one parent, and a 40-character parent hash, then builds
the commit and returns it together with its printed identity. -/
def commit_tree (tree_hash : List Nat) (parents : List (List Nat))
    (message : List Nat) (now : Nat) : Except RErr (Object × List Nat) :=
  if tree_hash.length ≠ 40 then .error .panic
  else if parents.length ≠ 1 then .error .panic
  else
    match parents with
    | [] => .error .panic
    | p :: _ =>
      if p.length ≠ 40 then .error .panic
      else
        let obj := new_commit tree_hash (some p) message now
        match obj.hash with
        | some h => .ok (obj, h)
        | none => .error .panic

/-! ### Definitions taken from the specification's words, for comparison
with the code-level definitions above. -/

/-- The size formula the specification states for a two-byte object-record
header: low nibble of the first byte, OR of the second byte's low 7 bits
shifted left by 4. -/
def specTwoByteSize (b0 b1 : Nat) : Nat :=
  (b0 &&& 0x0f) ||| ((b1 &&& 0x7f) <<< 4)

/-- Loop of the specification's ofs-delta offset encoding: while the
current byte's high bit is set, shift `value + 1` left 7 and OR in the next
byte's low 7 bits. -/
def specOfsGo (value cur : Nat) : List Nat → Option Nat
  | [] => if high_bit cur then none else some value
  | b :: rest =>
    if high_bit cur then specOfsGo (((value + 1) <<< 7) ||| (b &&& 0x7f)) b rest
    else some value

/-- The specification's big-endian continuation encoding for an ofs-delta
base offset: 7 data bits per byte, each non-terminal byte after the first
additionally adding 1. -/
def specOfsOffset : List Nat → Option Nat
  | [] => none
  | b :: rest => specOfsGo (b &&& 0x7f) b rest

/-- The specification's tree-entry sort key: the entry name, with a
trailing `/` appended for directory entries (mode `40000`). -/
def specTreeKey (e : TreeEntry) : List Nat :=
  e.name ++ (if e.mode = str2bytes "40000" then [47] else [])

/-- The specification's strict order on tree entries: byte order on the
directory-suffixed keys. -/
def specTreeLt (e1 e2 : TreeEntry) : Bool :=
  bytesLt (specTreeKey e1) (specTreeKey e2)

/-! ### Decimal-representation lemmas -/

/-- Folding the base-10 accumulator over `decimalAux fuel n` recovers `n`
(with enough fuel). -/
theorem decimalAux_foldl (fuel : Nat) :
    ∀ n a, n < fuel →
      List.foldl (fun acc d => acc * 10 + (d - 48)) a (decimalAux fuel n) =
        a * 10 ^ (decimalAux fuel n).length + n := by
  induction fuel with
  | zero => intro n a h; omega
  | succ fuel ih =>
    intro n a h
    by_cases hn : n < 10
    · simp [decimalAux, hn]
    · have hdiv : n / 10 < n := Nat.div_lt_self (by omega) (by omega)
      have hfuel : n / 10 < fuel := by omega
      simp only [decimalAux, hn, if_false]
      rw [List.foldl_append]
      simp only [List.foldl_cons, List.foldl_nil, List.length_append,
        List.length_cons, List.length_nil]
      rw [ih (n / 10) a hfuel]
      have hmod : 48 + n % 10 - 48 = n % 10 := by omega
      rw [hmod]
      have hpow : 10 ^ ((decimalAux fuel (n / 10)).length + 1) =
          10 ^ (decimalAux fuel (n / 10)).length * 10 := by ring
      rw [hpow]
      have := Nat.div_add_mod n 10
      ring_nf
      omega

/-- The decimal representation determines the number. -/
theorem decimal_inj {m n : Nat} (h : decimal m = decimal n) : m = n := by
  have hm := decimalAux_foldl (m + 1) m 0 (by omega)
  have hn := decimalAux_foldl (n + 1) n 0 (by omega)
  have hh : List.foldl (fun acc d => acc * 10 + (d - 48)) 0 (decimal m) =
      List.foldl (fun acc d => acc * 10 + (d - 48)) 0 (decimal n) := by rw [h]
  simp only [decimal] at hh
  rw [hm, hn] at hh
  have h2 : (decimalAux (m + 1) m).length = (decimalAux (n + 1) n).length := by
    have : decimalAux (m + 1) m = decimalAux (n + 1) n := h
    rw [this]
  simpa [h2] using hh

/-- If a byte list containing the decimal of `t` twice, at fixed positions,
is the same for `t1` and `t2`, then `t1 = t2`. -/
theorem append_decimal_inj (A B C : List Nat) {t1 t2 : Nat}
    (h : A ++ (decimal t1 ++ (B ++ (decimal t1 ++ C))) =
      A ++ (decimal t2 ++ (B ++ (decimal t2 ++ C)))) : t1 = t2 := by
  have h1 := List.append_cancel_left h
  have hlen := congrArg List.length h1
  simp only [List.length_append] at hlen
  have hdl : (decimal t1).length = (decimal t2).length := by omega
  exact decimal_inj (List.append_inj h1 hdl).1

/-! ### Claim theorems -/

set_option maxRecDepth 100000 in
/-- C1: refuted on the code.  For the two-byte record header `[0x93, 0x10]`
the code decodes size 3, because `parse_size` masks the second header byte
with `0x0f` instead of `0x7f` (and shifts every later byte by a constant
7), while the claim's formula `(b0 & 0x0f) | ((b1 & 0x7f) << 4)` gives
259. -/
theorem header_size_mask_bug :
    PackedObject.parse_header [0x93, 0x10] =
      .ok ([], (PackedObjectType.commit, 3)) ∧
    specTwoByteSize 0x93 0x10 = 259 ∧ (3 : Nat) ≠ 259 := by decide

set_option maxRecDepth 100000 in
/-- C2: refuted on the code.  An ofs-delta record's offset bytes
`[0x81, 0x01]` are decoded by `parse_size` to 129 instead of the
specification's big-endian plus-one encoding (257), and the resolution step
of `parse_pack_file` panics on every ofs-delta record (`todo!`), never
producing a resolved object. -/
theorem ofs_delta_unsupported_bug :
    PackedObject.parse_header [0x62, 0x81, 0x01] =
      .ok ([], (PackedObjectType.ofsDelta (some 129), 2)) ∧
    specOfsOffset [0x81, 0x01] = some 257 ∧ (129 : Nat) ≠ 257 ∧
    resolveObject [] ⟨PackedObjectType.ofsDelta (some 129), 2, []⟩ =
      .error .panic := by decide

set_option maxRecDepth 100000 in
/-- C3: refuted on the code.  A ref-delta record whose base is a commit is
resolved with its type rewritten to `Blob`, so it is registered under the
digest of `blob <len>\0<content>` rather than its base's kind `commit` as
the claim states; the two identities differ. -/
theorem ref_delta_kind_bug :
    resolveObject [(hexEncode (List.replicate 20 0xaa),
        ⟨PackedObjectType.commit, 1, [97]⟩)]
        ⟨PackedObjectType.refDelta (some (hexEncode (List.replicate 20 0xaa))),
          1, [1, 1, 1, 98]⟩ =
      .ok ⟨PackedObjectType.blob, 1, [98]⟩ ∧
    objectHash ⟨PackedObjectType.blob, 1, [98]⟩ =
      .ok (hexEncode (sha1 (str2bytes "blob 1" ++ [0, 98]))) ∧
    objectHash ⟨PackedObjectType.commit, 1, [98]⟩ =
      .ok (hexEncode (sha1 (str2bytes "commit 1" ++ [0, 98]))) ∧
    hexEncode (sha1 (str2bytes "blob 1" ++ [0, 98])) ≠
      hexEncode (sha1 (str2bytes "commit 1" ++ [0, 98])) ∧
    PackedObjectType.blob ≠ PackedObjectType.commit := by decide

set_option maxRecDepth 1000000 in
/-- C6: refuted on the code.  Parsing the canonical bytes of a commit
panics (`todo!("parsing commit object")`) instead of returning the commit;
and the byte string `blob13\0abc` parses successfully (the kind check is
only `starts_with`) to a blob whose recomputed identity is the digest of
`blob 3\0abc`, not the digest of the input bytes. -/
theorem parse_canonical_roundtrip_bug :
    (Object.canonical (.commit ⟨List.replicate 40 97, none, [109], 0⟩)).isSome = true ∧
    parse_content
        ((Object.canonical (.commit ⟨List.replicate 40 97, none, [109], 0⟩)).getD []) =
      .error .panic ∧
    parse_content (str2bytes "blob13" ++ [0] ++ str2bytes "abc") =
      .ok (.blob (str2bytes "abc")) ∧
    Object.hash (.blob (str2bytes "abc")) ≠
      some (hexEncode (sha1 (str2bytes "blob13" ++ [0] ++ str2bytes "abc"))) := by decide

set_option maxRecDepth 100000 in
/-- C7: refuted on the code.  For a directory containing a subdirectory
named `a` and a file named `a.b`, the write path sorts the entries by plain
byte order of the name, placing `a` first, although under the
specification's order (directory names compare with a trailing `/`) the
file `a.b` sorts strictly before the directory `a`. -/
theorem tree_sort_tiebreak_bug :
    new_from_path_entries
        [⟨str2bytes "100644", str2bytes "a.b", hexEncode (List.replicate 20 1)⟩,
         ⟨str2bytes "40000", str2bytes "a", hexEncode (List.replicate 20 2)⟩] =
      .tree [⟨str2bytes "40000", str2bytes "a", hexEncode (List.replicate 20 2)⟩,
             ⟨str2bytes "100644", str2bytes "a.b", hexEncode (List.replicate 20 1)⟩] ∧
    specTreeLt ⟨str2bytes "100644", str2bytes "a.b", hexEncode (List.replicate 20 1)⟩
        ⟨str2bytes "40000", str2bytes "a", hexEncode (List.replicate 20 2)⟩ = true ∧
    specTreeLt ⟨str2bytes "40000", str2bytes "a", hexEncode (List.replicate 20 2)⟩
        ⟨str2bytes "100644", str2bytes "a.b", hexEncode (List.replicate 20 1)⟩ = false := by
  decide

/-- C4 counterexample: the delta bytes `[0x85, 0x12, 0xab]` decode to a
Copy with offset `0x00ab0012` and size 0 — the claimed `0x10000` default
for an all-clear size mask does not exist in the code (the repository's own
unit test asserts size 0). -/
theorem copy_size_counterexample :
    parse_patch_instruction [0x85, 0x12, 0xab] =
      .ok ([], .copy 11206674 0) ∧
    PatchInstruction.copy 11206674 0 ≠ .copy 11206674 0x10000 := by decide

/-- C5 counterexample: a delta declaring a target length of 5 whose single
instruction inserts one byte is applied successfully, producing a 1-byte
target — the declared target length is never checked. -/
theorem patch_target_length_counterexample :
    patch_delta [1, 5, 1, 98] [97] = .ok [98] ∧
    parse_size [5, 1, 98] = .ok ([1, 98], 5) ∧
    ([98] : List Nat).length = 1 ∧ (1 : Nat) ≠ 5 := by decide

set_option maxRecDepth 1000000 in
/-- C8 counterexample: the commit-creation operation `commit_tree` asserts
exactly one parent, so a commit with zero parents (and likewise two
parents) is rejected with a panic, contradicting the claim that zero- and
two-parent commits are representable and encodable by it. -/
theorem commit_tree_parents_counterexample :
    commit_tree (List.replicate 40 97) [] [109] 0 = .error .panic ∧
    commit_tree (List.replicate 40 97) [List.replicate 40 98, List.replicate 40 99]
        [109] 0 = .error .panic := by decide

/-- C9 counterexample: for the input `0001` (declared length 1, below 4)
packet-line decoding panics on the underflowing payload index instead of
returning an error value the caller can handle. -/
theorem packet_line_crash_counterexample :
    parse_packet_lines (str2bytes "0001") = .error .panic ∧
    RErr.panic ≠ RErr.err := by decide

/-- A copy-instruction byte whose mask bit is clear consumes nothing and
yields 0. -/
theorem pull_false (l : List Nat) : pull false l = .ok (0, l) := rfl

/-- A bit covered by a mask that ANDs to zero is clear. -/
theorem testBit_of_mask_zero (b i : Nat) (hi : Nat.testBit 0x70 i = true)
    (hmask : b &&& 0x70 = 0) : b.testBit i = false := by
  by_contra hc
  have hb4 : b.testBit i = true := by simpa using hc
  have hland : (b &&& 0x70).testBit i = true := by
    simp [Nat.testBit_land, hb4, hi]
  rw [hmask] at hland
  simp at hland

/-- C4 (amended): for every copy instruction whose mask bits 4-6 are all
clear the decoded size is 0, not 0x10000; `[0x85, 0x12, 0xab]` decodes to a
Copy with offset `0x00ab0012` and size 0; and applying a size-0 copy
appends no bytes to the target. -/
theorem copy_empty_mask_size_zero (b : Nat) (rest rem : List Nat) (inst : PatchInstruction)
    (hb : high_bit b = true) (hmask : b &&& 0x70 = 0)
    (hok : parse_patch_instruction (b :: rest) = .ok (rem, inst)) :
    (∃ off, inst = .copy off 0) ∧
    parse_patch_instruction [0x85, 0x12, 0xab] = .ok ([], .copy 11206674 0) ∧
    (∀ src, patch_delta [0, 0, 0x80] src = .ok []) := by
  refine ⟨?_, by decide, ?_⟩
  · have h4 : b.testBit 4 = false := testBit_of_mask_zero b 4 (by decide) hmask
    have h5 : b.testBit 5 = false := testBit_of_mask_zero b 5 (by decide) hmask
    have h6 : b.testBit 6 = false := testBit_of_mask_zero b 6 (by decide) hmask
    simp only [parse_patch_instruction, hb, if_true, h4, h5, h6, pull_false] at hok
    cases hp0 : pull (b.testBit 0) rest with
    | error e => rw [hp0] at hok; simp [Bind.bind, Except.bind] at hok
    | ok v0 =>
      obtain ⟨o0, r1⟩ := v0
      rw [hp0] at hok
      simp only [Bind.bind, Except.bind] at hok
      cases hp1 : pull (b.testBit 1) r1 with
      | error e => rw [hp1] at hok; simp at hok
      | ok v1 =>
        obtain ⟨o1, r2⟩ := v1
        rw [hp1] at hok
        simp only at hok
        cases hp2 : pull (b.testBit 2) r2 with
        | error e => rw [hp2] at hok; simp at hok
        | ok v2 =>
          obtain ⟨o2, r3⟩ := v2
          rw [hp2] at hok
          simp only at hok
          cases hp3 : pull (b.testBit 3) r3 with
          | error e => rw [hp3] at hok; simp at hok
          | ok v3 =>
            obtain ⟨o3, r4⟩ := v3
            rw [hp3] at hok
            simp at hok
            exact ⟨o0 + 256 * o1 + 65536 * o2 + 16777216 * o3, hok.2.symm⟩
  · intro src
    simp [patch_delta, parse_size, parse_size_go, high_bit, patch_loop,
      parse_patch_instruction, pull, Bind.bind, Except.bind, Nat.testBit]

/-- C4 witness: the theorem applied to the concrete instruction
`[0x85, 0x12, 0xab]`. -/
theorem copy_empty_mask_size_zero_witness :
    (∃ off, PatchInstruction.copy 11206674 0 = .copy off 0) ∧
    parse_patch_instruction [0x85, 0x12, 0xab] = .ok ([], .copy 11206674 0) ∧
    (∀ src, patch_delta [0, 0, 0x80] src = .ok []) :=
  copy_empty_mask_size_zero 0x85 [0x12, 0xab] [] (.copy 11206674 0)
    (by decide) (by decide) (by decide)

/-- C5 (amended): delta application panics on a zero-byte insert header and
on a copy whose offset plus size exceeds the base's length, but the target
length declared in the delta's prefix is never checked: a delta declaring
target length 5 that produces a single byte is applied successfully. -/
theorem patch_delta_error_modes (src tail : List Nat) (o s : Nat)
    (hoob : src.length < o + s) :
    patch_delta (0 :: 0 :: 0 :: tail) src = .error .panic ∧
    patch_delta [0, 0, 0x91, o, s] src = .error .panic ∧
    patch_delta [1, 5, 1, 98] [97] = .ok [98] ∧
    parse_size [5, 1, 98] = .ok ([1, 98], 5) := by
  refine ⟨?_, ?_, by decide, by decide⟩
  · simp [patch_delta, parse_size, parse_size_go, high_bit, patch_loop,
      parse_patch_instruction, Bind.bind, Except.bind]
  · have hcond : ¬ (o + s ≤ src.length) := by omega
    simp [patch_delta, parse_size, parse_size_go, high_bit, patch_loop,
      parse_patch_instruction, pull, Bind.bind, Except.bind, hcond,
      Nat.testBit]

/-- C5 witness: the theorem applied with an empty base and a copy of one
byte at offset 1. -/
theorem patch_delta_error_modes_witness :
    patch_delta (0 :: 0 :: 0 :: []) [] = .error .panic ∧
    patch_delta [0, 0, 0x91, 1, 1] [] = .error .panic ∧
    patch_delta [1, 5, 1, 98] [97] = .ok [98] ∧
    parse_size [5, 1, 98] = .ok ([1, 98], 5) :=
  patch_delta_error_modes [] [] 1 1 (by decide)

/-- C8 (amended): with a 40-character tree hash and exactly one
40-character parent hash, `commit_tree` succeeds and returns the commit
with its identity, the canonical payload being one tree line, one parent
line per (at most one) parent, the author line, the committer line, a
blank line, the message and a trailing newline; any parent count other
than one is rejected with a panic. -/
theorem commit_tree_single_parent_format (th p msg : List Nat) (t : Nat)
    (h1 : th.length = 40) (h2 : p.length = 40) :
    commit_tree th [p] msg t =
      .ok (new_commit th (some p) msg t,
        hexEncode (sha1 (str2bytes "commit " ++
          decimal (Commit.encode ⟨th, some p, msg, t⟩).length ++
          [0] ++ Commit.encode ⟨th, some p, msg, t⟩))) ∧
    (∀ c : Commit, Commit.encode c =
      str2bytes "tree " ++ c.tree_hash ++ [10] ++
      (c.parent_hash.toList.flatMap (fun q => str2bytes "parent " ++ q ++ [10])) ++
      str2bytes "author Author Name <author@example.com> " ++ decimal c.timestamp ++
        str2bytes " +0000\n" ++
      str2bytes "committer Committer Name <committer@example.com> " ++ decimal c.timestamp ++
        str2bytes " +0000\n" ++
      [10] ++ c.message ++ [10]) ∧
    (∀ ps : List (List Nat), ps.length ≠ 1 → commit_tree th ps msg t = .error .panic) := by
  refine ⟨?_, ?_, ?_⟩
  · simp [commit_tree, h1, h2, new_commit, Commit.new, Object.hash, Object.canonical,
      Object.body, Object.header, Bind.bind, Option.bind, List.append_assoc]
  · intro c
    cases hc : c.parent_hash <;> simp [Commit.encode, hc, List.append_assoc]
  · intro ps hps
    simp [commit_tree, h1, hps]

/-- C8 witness: the theorem applied to concrete 40-character hashes. -/
theorem commit_tree_single_parent_format_witness :
    commit_tree (List.replicate 40 97) [List.replicate 40 98] [110] 5 =
      .ok (new_commit (List.replicate 40 97) (some (List.replicate 40 98)) [110] 5,
        hexEncode (sha1 (str2bytes "commit " ++
          decimal (Commit.encode ⟨List.replicate 40 97, some (List.replicate 40 98),
            [110], 5⟩).length ++
          [0] ++ Commit.encode ⟨List.replicate 40 97, some (List.replicate 40 98),
            [110], 5⟩))) ∧
    (∀ c : Commit, Commit.encode c =
      str2bytes "tree " ++ c.tree_hash ++ [10] ++
      (c.parent_hash.toList.flatMap (fun q => str2bytes "parent " ++ q ++ [10])) ++
      str2bytes "author Author Name <author@example.com> " ++ decimal c.timestamp ++
        str2bytes " +0000\n" ++
      str2bytes "committer Committer Name <committer@example.com> " ++ decimal c.timestamp ++
        str2bytes " +0000\n" ++
      [10] ++ c.message ++ [10]) ∧
    (∀ ps : List (List Nat), ps.length ≠ 1 →
      commit_tree (List.replicate 40 97) ps [110] 5 = .error .panic) :=
  commit_tree_single_parent_format (List.replicate 40 97) (List.replicate 40 98) [110] 5
    (by decide) (by decide)

/-- C9 (amended): packet-line decoding returns an error value only for a
non-hex length prefix; a declared length below 4 (here `0001`), input with
insufficient bytes for the prefix (here `00`), and insufficient bytes for
the declared payload (here `0006a`, which declares a 2-byte payload but
holds 1) crash with a panic rather than returning an error. -/
theorem packet_line_error_modes (b0 b1 b2 b3 : Nat) (tail : List Nat)
    (hpack : [b0, b1, b2, b3] ≠ str2bytes "PACK")
    (hhex : hex4 b0 b1 b2 b3 = none) :
    parse_packet_lines (b0 :: b1 :: b2 :: b3 :: tail) = .error .err ∧
    parse_packet_lines (str2bytes "0001") = .error .panic ∧
    parse_packet_lines (str2bytes "00") = .error .panic ∧
    parse_packet_lines (str2bytes "0006a") = .error .panic := by
  refine ⟨?_, by decide, by decide, by decide⟩
  show ppl_go ((b0 :: b1 :: b2 :: b3 :: tail).length + 1)
    (b0 :: b1 :: b2 :: b3 :: tail) [] = .error .err
  have hl : (b0 :: b1 :: b2 :: b3 :: tail).length + 1 = (tail.length + 4) + 1 := by
    simp
  rw [hl]
  simp only [ppl_go, hhex]
  rw [if_neg hpack]

/-- C9 witness: the theorem applied to the non-hex prefix `zzzz`. -/
theorem packet_line_error_modes_witness :
    parse_packet_lines (122 :: 122 :: 122 :: 122 :: []) = .error .err ∧
    parse_packet_lines (str2bytes "0001") = .error .panic ∧
    parse_packet_lines (str2bytes "00") = .error .panic ∧
    parse_packet_lines (str2bytes "0006a") = .error .panic :=
  packet_line_error_modes 122 122 122 122 [] (by decide) (by decide)

set_option maxRecDepth 2000000 in
set_option maxHeartbeats 2000000 in
/-- C10: commit creation embeds the wall-clock second count into the
author and committer lines, so two commits built from the same tree hash,
parent and message at different seconds have different canonical bytes —
and, at concrete distinct seconds, different identities. -/
theorem commit_wallclock_nondeterminism (th msg : List Nat) (p : Option (List Nat))
    (t1 t2 : Nat) (hne : t1 ≠ t2) :
    Commit.encode ⟨th, p, msg, t1⟩ ≠ Commit.encode ⟨th, p, msg, t2⟩ ∧
    Object.hash (.commit ⟨List.replicate 40 97, none, str2bytes "msg", 1735689600⟩) ≠
      Object.hash (.commit ⟨List.replicate 40 97, none, str2bytes "msg", 1735689601⟩) := by
  constructor
  · intro heq
    apply hne
    apply append_decimal_inj
      (str2bytes "tree " ++ (th ++ ([10] ++ ((match p with
        | some q => str2bytes "parent " ++ q ++ [10]
        | none => ([] : List Nat)) ++ str2bytes "author Author Name <author@example.com> "))))
      (str2bytes " +0000\n" ++ str2bytes "committer Committer Name <committer@example.com> ")
      (str2bytes " +0000\n" ++ ([10] ++ (msg ++ [10])))
    cases p with
    | none => simpa [Commit.encode, List.append_assoc] using heq
    | some q => simpa [Commit.encode, List.append_assoc] using heq
  · decide

set_option maxRecDepth 2000000 in
set_option maxHeartbeats 2000000 in
/-- C10 witness: the theorem applied at timestamps 0 and 1. -/
theorem commit_wallclock_nondeterminism_witness :
    (0 : Nat) ≠ 1 ∧
    (Commit.encode ⟨[], none, [], 0⟩ ≠ Commit.encode ⟨[], none, [], 1⟩ ∧
     Object.hash (.commit ⟨List.replicate 40 97, none, str2bytes "msg", 1735689600⟩) ≠
       Object.hash (.commit ⟨List.replicate 40 97, none, str2bytes "msg", 1735689601⟩)) :=
  ⟨by decide, commit_wallclock_nondeterminism [] [] none 0 1 (by decide)⟩
